import Mathlib

/-!
Verification of the motif_dashboard repository.

This file gives a shallow embedding, in Lean 4, of the data-transformation
logic of the repository's three dashboards:

* `src/app.py` — the correlation-network dashboard: row filtering by
  correlation sign and expression direction, construction of a typed
  weighted undirected graph (networkx semantics: attribute upsert on
  `add_node`, weight upsert on `add_edge` keyed by unordered node pair),
  and the plotly rendering of edges and nodes.
* `src/app_previous.py` — CSV loading with column synthesis and numeric
  coercion (`load_csv_data`) and the dictionary-driven row filter
  (`filter_data`).
* `src/utils/sidebar_filters.py` (`filter_dataframe`) and
  `src/utils/swarmplot.py` (`plot_swarmplot`) used by
  `src/app_big_dataframe.py`.

Floating-point values are modelled as exact rationals; pandas dataframes
as lists of rows; networkx node/edge attribute dictionaries as explicit
association lists with the same first-match update semantics.
-/

namespace MotifDashboard

/-! ### Data model: one row of the correlation CSV (app.py) -/

/-- One input row of `data/znfs_genes_correlation_forNetwork.csv`:
columns `KRAB-ZNF` (regulatory gene), `Gene` (transposable element),
`coef` (signed correlation coefficient) and `exp` (expression direction). -/
structure Record where
  gene : String
  te : String
  coef : Rat
  exp : String
deriving DecidableEq, Repr

/-! ### Row Filter (app.py lines 26–33) -/

/-- The two sidebar filters of `app.py`: `coef_direction` selects rows with
positive / negative `coef` (or leaves them for `"both"`), then
`exp_filter` keeps rows whose `exp` column equals the selection unless it
is `"both"`. -/
def applyNetworkFilters (sign cat : String) (df : List Record) : List Record :=
  let df1 :=
    if sign = "positive" then df.filter (fun r => decide (r.coef > 0))
    else if sign = "negative" then df.filter (fun r => decide (r.coef < 0))
    else df
  if cat ≠ "both" then df1.filter (fun r => r.exp == cat) else df1

/-- Sign predicate as the spec words it: positive keeps `coef > 0`,
negative keeps `coef < 0`, both keeps everything. -/
def signKeep (sign : String) (r : Record) : Bool :=
  if sign = "positive" then decide (r.coef > 0)
  else if sign = "negative" then decide (r.coef < 0)
  else true

/-- Category predicate as the spec words it: a category other than
`"both"` keeps rows whose expression direction equals it. -/
def catKeep (cat : String) (r : Record) : Bool :=
  if cat = "both" then true else r.exp == cat

end MotifDashboard

namespace MotifDashboard

theorem applyNetworkFilters_eq_filter (sign cat : String) (df : List Record) :
    applyNetworkFilters sign cat df = df.filter (fun r => signKeep sign r && catKeep cat r) := by
  unfold applyNetworkFilters signKeep catKeep
  by_cases hp : sign = "positive" <;> by_cases hn : sign = "negative" <;>
    by_cases hb : cat = "both" <;>
    simp [hp, hn, hb, List.filter_filter, Bool.and_comm]

/-- The worked example of the spec (§8): two records sharing the gene
`TF1`, one positively correlated up-regulated TE and one negatively
correlated down-regulated TE. -/
def exRecords : List Record :=
  [⟨"TF1", "L1PA2", 0.8, "up-regulated"⟩, ⟨"TF1", "AluSx", -0.3, "down-regulated"⟩]

/-- Claim C1: the Row Filter returns exactly the records satisfying both
the sign predicate (positive keeps `coef > 0`, negative keeps `coef < 0`,
a zero coefficient survives only under `both`) and the category predicate
(a category other than `both` keeps records whose expression direction
equals it); the output is a subset of the input and the `both`/`both`
setting returns the input unchanged. -/
theorem row_filter_contract (sign cat : String) (df : List Record)
    (hs : sign = "both" ∨ sign = "positive" ∨ sign = "negative") :
    applyNetworkFilters sign cat df = df.filter (fun r => signKeep sign r && catKeep cat r)
    ∧ (applyNetworkFilters sign cat df).Sublist df
    ∧ (sign = "both" → cat = "both" → applyNetworkFilters sign cat df = df)
    ∧ (∀ r ∈ df, r.coef = 0 → r ∈ applyNetworkFilters sign cat df → sign = "both") := by
  refine ⟨applyNetworkFilters_eq_filter sign cat df, ?_, ?_, ?_⟩
  · rw [applyNetworkFilters_eq_filter]
    exact List.filter_sublist df
  · intro h1 h2
    simp [applyNetworkFilters, h1, h2]
  · intro r _ h0 hmem
    rw [applyNetworkFilters_eq_filter] at hmem
    rcases List.mem_filter.mp hmem with ⟨-, hk⟩
    rcases hs with h | h | h
    · exact h
    · exfalso
      rw [h] at hk
      simp [signKeep, h0] at hk
    · exfalso
      rw [h] at hk
      simp [signKeep, h0] at hk

/-- Witness for C1: with `sign = both` and `cat = both` the example
record set passes through the Row Filter unchanged. -/
theorem row_filter_contract_witness :
    applyNetworkFilters "both" "both" exRecords = exRecords :=
  (row_filter_contract "both" "both" exRecords (Or.inl rfl)).2.2.1 rfl rfl

end MotifDashboard

namespace MotifDashboard

/-! ### Graph model (networkx semantics, app.py lines 36–46)

networkx stores node and edge attributes in dictionaries; re-adding an
existing node *updates* its attribute dictionary, and re-adding an
existing edge (in either endpoint order — the graph is undirected)
updates its attributes.  Insertion order is preserved. -/

/-- Attribute dictionary of one node: the `type` key (`"gene"` or
`"te"`) and the optional `exp` key (expression direction of a TE). -/
structure NodeData where
  type : Option String
  exp : Option String
deriving DecidableEq, Repr

/-- `dict.update`: keys present in the new attribute set overwrite the
old ones, absent keys are left unchanged. -/
def updNode (old new : NodeData) : NodeData :=
  { type := match new.type with | some t => some t | none => old.type,
    exp := match new.exp with | some e => some e | none => old.exp }

/-- `G.add_node(n, **attrs)` on the association list of nodes: update the
attributes of an existing entry in place, or append a fresh entry. -/
def addNodeList : List (String × NodeData) → String → NodeData → List (String × NodeData)
  | [], n, d => [(n, d)]
  | (m, d0) :: rest, n, d =>
    if m = n then (m, updNode d0 d) :: rest
    else (m, d0) :: addNodeList rest n d

/-- Attribute lookup `G.nodes[n]`. -/
def lookupNode : List (String × NodeData) → String → Option NodeData
  | [], _ => none
  | (m, d) :: rest, n => if m = n then some d else lookupNode rest n

/-- `add_edge` implicitly creates missing endpoints with an empty
attribute dictionary. -/
def ensureNode (ns : List (String × NodeData)) (n : String) : List (String × NodeData) :=
  if (lookupNode ns n).isSome then ns else ns ++ [(n, ⟨none, none⟩)]

/-- Undirected equality of edge keys: `{a, b} = {u, v}`. -/
def edgeMatches (a b u v : String) : Bool :=
  (a == u && b == v) || (a == v && b == u)

/-- `G.add_edge(u, v, weight=w)` on the edge list: overwrite the weight
of the (undirected) edge if present, otherwise append it. -/
def addEdgeList : List (String × String × Rat) → String → String → Rat → List (String × String × Rat)
  | [], u, v, w => [(u, v, w)]
  | (a, b, w0) :: rest, u, v, w =>
    if edgeMatches a b u v then (a, b, w) :: rest
    else (a, b, w0) :: addEdgeList rest u v w

/-- Weight lookup of an undirected edge. -/
def lookupEdge : List (String × String × Rat) → String → String → Option Rat
  | [], _, _ => none
  | (a, b, w) :: rest, u, v => if edgeMatches a b u v then some w else lookupEdge rest u v

/-- An undirected networkx graph with string nodes, node attribute
dictionaries, and a `weight` attribute per edge. -/
structure Graph where
  nodes : List (String × NodeData)
  edges : List (String × String × Rat)
deriving DecidableEq, Repr

def Graph.add_node (g : Graph) (n : String) (d : NodeData) : Graph :=
  { g with nodes := addNodeList g.nodes n d }

def Graph.add_edge (g : Graph) (u v : String) (w : Rat) : Graph :=
  { nodes := ensureNode (ensureNode g.nodes u) v,
    edges := addEdgeList g.edges u v w }

/-- Body of the graph-building loop of `app.py`: upsert the gene node,
upsert the TE node (with its expression direction), upsert the edge. -/
def processRecord (g : Graph) (r : Record) : Graph :=
  ((g.add_node r.gene ⟨some "gene", none⟩).add_node r.te
      ⟨some "te", some r.exp⟩).add_edge r.gene r.te r.coef

/-- The graph built from the filtered record set. -/
def buildGraph (rs : List Record) : Graph :=
  rs.foldl processRecord ⟨[], []⟩

/-- The `type` attribute of a node, `none` when the node is absent or
has no `type` key. -/
def nodeType (g : Graph) (n : String) : Option String :=
  match lookupNode g.nodes n with
  | some d => d.type
  | none => none

/-- Edge keys (endpoint pairs in stored order) of an edge list. -/
def keysE (es : List (String × String × Rat)) : List (String × String) :=
  es.map (fun e => (e.1, e.2.1))

/-- The coefficient of the last record matching the unordered pair
`{u, v}` — the "last writer wins" value of the spec. -/
def lastCoefM (rs : List Record) (u v : String) : Option Rat :=
  rs.foldl (fun acc r => if edgeMatches r.gene r.te u v then some r.coef else acc) none

end MotifDashboard

namespace MotifDashboard

/-! ### Association-list lemmas for the node dictionary -/

theorem lookupNode_addNodeList (ns : List (String × NodeData)) (n : String) (d : NodeData)
    (m : String) :
    lookupNode (addNodeList ns n d) m =
      if m = n then
        some (match lookupNode ns n with | some d0 => updNode d0 d | none => d)
      else lookupNode ns m := by
  induction ns with
  | nil =>
    by_cases h : m = n
    · subst h
      simp [addNodeList, lookupNode]
    · simp [addNodeList, lookupNode, h, Ne.symm h]
  | cons p rest ih =>
    obtain ⟨k, d0⟩ := p
    by_cases hk : k = n
    · subst hk
      by_cases hm : m = k <;> simp [addNodeList, lookupNode, hm, eq_comm]
    · by_cases hm : k = m
      · subst hm
        simp [addNodeList, lookupNode, hk, Ne.symm hk]
      · simp [addNodeList, lookupNode, hk, hm, ih]

theorem lookupNode_isSome_iff (ns : List (String × NodeData)) (n : String) :
    (lookupNode ns n).isSome ↔ n ∈ ns.map Prod.fst := by
  induction ns with
  | nil => simp [lookupNode]
  | cons p rest ih =>
    obtain ⟨k, d0⟩ := p
    by_cases h : k = n
    · subst h
      simp [lookupNode]
    · simp [lookupNode, h, Ne.symm h, ih]

theorem keys_addNodeList (ns : List (String × NodeData)) (n : String) (d : NodeData) :
    (addNodeList ns n d).map Prod.fst =
      if n ∈ ns.map Prod.fst then ns.map Prod.fst else ns.map Prod.fst ++ [n] := by
  induction ns with
  | nil => simp [addNodeList]
  | cons p rest ih =>
    obtain ⟨k, d0⟩ := p
    by_cases h : k = n
    · simp [addNodeList, h]
    · by_cases hn : n ∈ rest.map Prod.fst <;>
        simp [addNodeList, h, hn, ih, Ne.symm h]

theorem mem_keys_addNodeList (ns : List (String × NodeData)) (n : String) (d : NodeData)
    (x : String) :
    x ∈ (addNodeList ns n d).map Prod.fst ↔ x ∈ ns.map Prod.fst ∨ x = n := by
  rw [keys_addNodeList]
  split
  · rename_i h
    constructor
    · exact Or.inl
    · rintro (hx | rfl)
      · exact hx
      · exact h
  · simp

theorem nodup_keys_addNodeList (ns : List (String × NodeData)) (n : String) (d : NodeData)
    (h : (ns.map Prod.fst).Nodup) : ((addNodeList ns n d).map Prod.fst).Nodup := by
  rw [keys_addNodeList]
  split
  · exact h
  · rename_i hn
    simp [List.nodup_append, h, hn]

/-! ### Edge-list lemmas -/

theorem edgeMatches_iff (a b u v : String) :
    edgeMatches a b u v = true ↔ (a = u ∧ b = v) ∨ (a = v ∧ b = u) := by
  simp [edgeMatches]

theorem edgeMatches_symm {a b u v : String} (h : edgeMatches a b u v = true) :
    edgeMatches u v a b = true := by
  rw [edgeMatches_iff] at h ⊢
  tauto

theorem edgeMatches_trans {a b u v x y : String} (h1 : edgeMatches a b u v = true)
    (h2 : edgeMatches u v x y = true) : edgeMatches a b x y = true := by
  rw [edgeMatches_iff] at h1 h2 ⊢
  rcases h1 with ⟨rfl, rfl⟩ | ⟨rfl, rfl⟩ <;> tauto

theorem lookupEdge_addEdgeList (es : List (String × String × Rat)) (u v : String) (w : Rat)
    (a b : String) :
    lookupEdge (addEdgeList es u v w) a b =
      if edgeMatches u v a b then some w else lookupEdge es a b := by
  induction es with
  | nil => simp [addEdgeList, lookupEdge, edgeMatches_symm]
  | cons e rest ih =>
    obtain ⟨p, q, w0⟩ := e
    by_cases h : edgeMatches p q u v
    · have hsym := edgeMatches_symm h
      by_cases h2 : edgeMatches u v a b
      · have h3 : edgeMatches p q a b = true := edgeMatches_trans h h2
        simp [addEdgeList, h, lookupEdge, h2, h3]
      · have h3 : ¬ edgeMatches p q a b = true := fun hab => h2 (edgeMatches_trans hsym hab)
        simp [addEdgeList, h, lookupEdge, h2, h3]
    · by_cases hpq : edgeMatches p q a b
      · have h2 : ¬ edgeMatches u v a b = true := by
          intro hab
          exact h (edgeMatches_trans hpq (edgeMatches_symm hab))
        simp [addEdgeList, h, lookupEdge, hpq, h2]
      · simp [addEdgeList, h, lookupEdge, hpq, ih]

theorem keysE_cons (e : String × String × Rat) (es : List (String × String × Rat)) :
    keysE (e :: es) = (e.1, e.2.1) :: keysE es := rfl

theorem keysE_addEdgeList (es : List (String × String × Rat)) (u v : String) (w : Rat) :
    keysE (addEdgeList es u v w) =
      if es.any (fun e => edgeMatches e.1 e.2.1 u v) then keysE es
      else keysE es ++ [(u, v)] := by
  induction es with
  | nil => simp [addEdgeList, keysE]
  | cons e rest ih =>
    obtain ⟨p, q, w0⟩ := e
    by_cases h : edgeMatches p q u v
    · simp [addEdgeList, h, keysE_cons]
    · cases hr : rest.any (fun e => edgeMatches e.1 e.2.1 u v) <;>
        simp [addEdgeList, h, keysE_cons, ih, hr]

theorem pairwiseE_addEdgeList (es : List (String × String × Rat)) (u v : String) (w : Rat)
    (h : List.Pairwise (fun k k' => edgeMatches k.1 k.2 k'.1 k'.2 = false) (keysE es)) :
    List.Pairwise (fun k k' => edgeMatches k.1 k.2 k'.1 k'.2 = false)
      (keysE (addEdgeList es u v w)) := by
  rw [keysE_addEdgeList]
  split
  · exact h
  · rename_i hany
    rw [List.pairwise_append]
    refine ⟨h, List.pairwise_singleton _ _, ?_⟩
    intro k hk k' hk'
    rw [List.mem_singleton] at hk'
    subst hk'
    rcases List.mem_map.mp hk with ⟨e, he, rfl⟩
    have hfalse : (es.any fun e => edgeMatches e.1 e.2.1 u v) = false := by
      cases hb : es.any fun e => edgeMatches e.1 e.2.1 u v
      · rfl
      · exact absurd hb hany
    have h5 : ¬ edgeMatches e.1 e.2.1 u v = true := List.any_eq_false.mp hfalse e he
    cases hb : edgeMatches e.1 e.2.1 u v
    · rfl
    · exact absurd hb h5

end MotifDashboard

namespace MotifDashboard

/-! ### Structure of one loop iteration -/

theorem lookupNode_addNodeList_self_isSome (ns : List (String × NodeData)) (n : String)
    (d : NodeData) : (lookupNode (addNodeList ns n d) n).isSome := by
  rw [lookupNode_addNodeList]
  simp

theorem processRecord_nodes (g : Graph) (r : Record) :
    (processRecord g r).nodes =
      addNodeList (addNodeList g.nodes r.gene ⟨some "gene", none⟩) r.te
        ⟨some "te", some r.exp⟩ := by
  unfold processRecord Graph.add_edge Graph.add_node
  have h2 : (lookupNode (addNodeList (addNodeList g.nodes r.gene ⟨some "gene", none⟩) r.te
      ⟨some "te", some r.exp⟩) r.te).isSome := lookupNode_addNodeList_self_isSome _ _ _
  have h1 : (lookupNode (addNodeList (addNodeList g.nodes r.gene ⟨some "gene", none⟩) r.te
      ⟨some "te", some r.exp⟩) r.gene).isSome := by
    rw [lookupNode_addNodeList]
    by_cases h : r.gene = r.te
    · simp [h]
    · simp only [h, if_false]
      exact lookupNode_addNodeList_self_isSome _ _ _
  simp [ensureNode, h1, h2]

theorem processRecord_edges (g : Graph) (r : Record) :
    (processRecord g r).edges = addEdgeList g.edges r.gene r.te r.coef := rfl

theorem buildGraph_concat (l : List Record) (r : Record) :
    buildGraph (l ++ [r]) = processRecord (buildGraph l) r := by
  simp [buildGraph, List.foldl_append]

theorem buildGraph_nil : buildGraph [] = ⟨[], []⟩ := rfl

/-! ### Invariants of the built graph -/

/-- Every node of the built graph is a gene of some record carrying
`type = "gene"`, or a TE of some record carrying `type = "te"` —
whichever role wrote it last. -/
theorem buildGraph_node_types (rs : List Record) (n : String) (d : NodeData)
    (h : lookupNode (buildGraph rs).nodes n = some d) :
    (n ∈ rs.map Record.gene ∧ d.type = some "gene")
    ∨ (n ∈ rs.map Record.te ∧ d.type = some "te") := by
  induction rs using List.reverseRecOn generalizing d with
  | nil => simp [buildGraph_nil, lookupNode] at h
  | append_singleton l r ih =>
    rw [buildGraph_concat, processRecord_nodes] at h
    rw [lookupNode_addNodeList] at h
    by_cases ht : n = r.te
    · rw [if_pos ht] at h
      right
      refine ⟨by simp [ht], ?_⟩
      rcases hl : lookupNode (addNodeList (buildGraph l).nodes r.gene ⟨some "gene", none⟩) r.te
          with _ | d0 <;> rw [hl] at h <;> cases h <;> simp [updNode]
    · rw [if_neg ht] at h
      rw [lookupNode_addNodeList] at h
      by_cases hg : n = r.gene
      · rw [if_pos hg] at h
        left
        refine ⟨by simp [hg], ?_⟩
        rcases hl : lookupNode (buildGraph l).nodes r.gene
            with _ | d0 <;> rw [hl] at h <;> cases h <;> simp [updNode]
      · rw [if_neg hg] at h
        rcases ih d h with ⟨hm, hty⟩ | ⟨hm, hty⟩
        · exact Or.inl ⟨by simp [hm], hty⟩
        · exact Or.inr ⟨by simp [hm], hty⟩

/-- The node set of the built graph is exactly the genes and TEs of the
record set. -/
theorem buildGraph_mem_keys (rs : List Record) (x : String) :
    x ∈ (buildGraph rs).nodes.map Prod.fst
      ↔ (x ∈ rs.map Record.gene ∨ x ∈ rs.map Record.te) := by
  induction rs using List.reverseRecOn with
  | nil => simp [buildGraph_nil]
  | append_singleton l r ih =>
    rw [buildGraph_concat, processRecord_nodes, mem_keys_addNodeList, mem_keys_addNodeList, ih]
    simp only [List.map_append, List.mem_append, List.map_cons, List.map_nil,
      List.mem_singleton]
    tauto

/-- The node keys of the built graph contain no duplicates. -/
theorem buildGraph_nodup_keys (rs : List Record) :
    ((buildGraph rs).nodes.map Prod.fst).Nodup := by
  induction rs using List.reverseRecOn with
  | nil => simp [buildGraph_nil]
  | append_singleton l r ih =>
    rw [buildGraph_concat, processRecord_nodes]
    exact nodup_keys_addNodeList _ _ _ (nodup_keys_addNodeList _ _ _ ih)

/-- The weight stored for an (undirected) edge pair is the coefficient
of the last record carrying that pair — "last writer wins". -/
theorem buildGraph_edge_weights (rs : List Record) (u v : String) :
    lookupEdge (buildGraph rs).edges u v = lastCoefM rs u v := by
  induction rs using List.reverseRecOn with
  | nil => simp [buildGraph_nil, lookupEdge, lastCoefM]
  | append_singleton l r ih =>
    rw [buildGraph_concat, processRecord_edges, lookupEdge_addEdgeList, ih]
    simp [lastCoefM, List.foldl_append]

/-- Every edge key of the built graph pairs a gene of some record (first
endpoint) with a TE of some record (second endpoint). -/
theorem buildGraph_edge_endpoints (rs : List Record) (k : String × String)
    (hk : k ∈ keysE (buildGraph rs).edges) :
    k.1 ∈ rs.map Record.gene ∧ k.2 ∈ rs.map Record.te := by
  induction rs using List.reverseRecOn with
  | nil => simp [buildGraph_nil, keysE] at hk
  | append_singleton l r ih =>
    rw [buildGraph_concat, processRecord_edges, keysE_addEdgeList] at hk
    have step : k ∈ keysE (buildGraph l).edges ∨ k = (r.gene, r.te) := by
      rcases h : (buildGraph l).edges.any (fun e => edgeMatches e.1 e.2.1 r.gene r.te) <;>
          rw [h] at hk
      · rw [if_neg (by simp)] at hk
        rcases List.mem_append.mp hk with h1 | h1
        · exact Or.inl h1
        · exact Or.inr (List.mem_singleton.mp h1)
      · rw [if_pos rfl] at hk
        exact Or.inl hk
    rcases step with h1 | rfl
    · rcases ih h1 with ⟨hg, ht⟩
      exact ⟨by simp [hg], by simp [ht]⟩
    · exact ⟨by simp, by simp⟩

/-- The built graph is simple: distinct stored edges never connect the
same unordered pair of nodes. -/
theorem buildGraph_simple (rs : List Record) :
    List.Pairwise (fun k k' => edgeMatches k.1 k.2 k'.1 k'.2 = false)
      (keysE (buildGraph rs).edges) := by
  induction rs using List.reverseRecOn with
  | nil => simp [buildGraph_nil, keysE]
  | append_singleton l r ih =>
    rw [buildGraph_concat, processRecord_edges]
    exact pairwiseE_addEdgeList _ _ _ _ ih

end MotifDashboard

namespace MotifDashboard

/-- When no identifier is used both as a gene and as a TE, a name
occurring as a gene has node type `"gene"` in the built graph. -/
theorem nodeType_of_gene (rs : List Record) (hd : ∀ a ∈ rs, ∀ b ∈ rs, a.gene ≠ b.te)
    (x : String) (hg : x ∈ rs.map Record.gene) :
    nodeType (buildGraph rs) x = some "gene" := by
  have hmem : x ∈ (buildGraph rs).nodes.map Prod.fst :=
    (buildGraph_mem_keys rs x).mpr (Or.inl hg)
  obtain ⟨d, hdl⟩ := Option.isSome_iff_exists.mp ((lookupNode_isSome_iff _ x).mpr hmem)
  rcases buildGraph_node_types rs x d hdl with ⟨-, hty⟩ | ⟨hte, -⟩
  · simp [nodeType, hdl, hty]
  · exfalso
    obtain ⟨a, ha, hax⟩ := List.mem_map.mp hg
    obtain ⟨b, hb, hbx⟩ := List.mem_map.mp hte
    exact hd a ha b hb (hax.trans hbx.symm)

/-- When no identifier is used both as a gene and as a TE, a name
occurring as a TE has node type `"te"` in the built graph. -/
theorem nodeType_of_te (rs : List Record) (hd : ∀ a ∈ rs, ∀ b ∈ rs, a.gene ≠ b.te)
    (x : String) (ht : x ∈ rs.map Record.te) :
    nodeType (buildGraph rs) x = some "te" := by
  have hmem : x ∈ (buildGraph rs).nodes.map Prod.fst :=
    (buildGraph_mem_keys rs x).mpr (Or.inr ht)
  obtain ⟨d, hdl⟩ := Option.isSome_iff_exists.mp ((lookupNode_isSome_iff _ x).mpr hmem)
  rcases buildGraph_node_types rs x d hdl with ⟨hge, -⟩ | ⟨-, hty⟩
  · exfalso
    obtain ⟨a, ha, hax⟩ := List.mem_map.mp hge
    obtain ⟨b, hb, hbx⟩ := List.mem_map.mp ht
    exact hd a ha b hb (hax.trans hbx.symm)
  · simp [nodeType, hdl, hty]

/-- Node count of the built graph under gene/TE disjointness. -/
theorem buildGraph_node_count (rs : List Record)
    (hd : ∀ a ∈ rs, ∀ b ∈ rs, a.gene ≠ b.te) :
    (buildGraph rs).nodes.length
      = (rs.map Record.gene).dedup.length + (rs.map Record.te).dedup.length := by
  have hnd : ((buildGraph rs).nodes.map Prod.fst).Nodup := buildGraph_nodup_keys rs
  have hnd2 : ((rs.map Record.gene).dedup ++ (rs.map Record.te).dedup).Nodup := by
    rw [List.nodup_append]
    refine ⟨List.nodup_dedup _, List.nodup_dedup _, ?_⟩
    intro x hx hx'
    rw [List.mem_dedup] at hx hx'
    obtain ⟨a, ha, rfl⟩ := List.mem_map.mp hx
    obtain ⟨b, hb, hbx⟩ := List.mem_map.mp hx'
    exact hd a ha b hb hbx.symm
  have hperm : List.Perm ((buildGraph rs).nodes.map Prod.fst)
      ((rs.map Record.gene).dedup ++ (rs.map Record.te).dedup) := by
    rw [List.perm_ext_iff_of_nodup hnd hnd2]
    intro x
    rw [buildGraph_mem_keys]
    simp [List.mem_append, List.mem_dedup]
  have hlen := hperm.length_eq
  rw [List.length_map] at hlen
  rw [hlen, List.length_append]

/-- Claim C2 (amended): provided no identifier occurs both as a gene
symbol and as a TE symbol in the record set, the built graph satisfies:
every edge's first endpoint is a node of kind gene and its second a node
of kind TE; the node count equals the number of distinct gene identities
plus the number of distinct TE identities; the graph is simple (no two
stored edges connect the same unordered pair); and the weight stored for
any pair equals the coefficient of the last record carrying that pair
(so a later duplicate record overwrites the edge weight). -/
theorem graph_builder_postconditions (rs : List Record)
    (hd : ∀ a ∈ rs, ∀ b ∈ rs, a.gene ≠ b.te) :
    (∀ e ∈ (buildGraph rs).edges,
        nodeType (buildGraph rs) e.1 = some "gene"
        ∧ nodeType (buildGraph rs) e.2.1 = some "te")
    ∧ (buildGraph rs).nodes.length
        = (rs.map Record.gene).dedup.length + (rs.map Record.te).dedup.length
    ∧ List.Pairwise (fun k k' => edgeMatches k.1 k.2 k'.1 k'.2 = false)
        (keysE (buildGraph rs).edges)
    ∧ (∀ u v, lookupEdge (buildGraph rs).edges u v = lastCoefM rs u v) := by
  refine ⟨?_, buildGraph_node_count rs hd, buildGraph_simple rs, buildGraph_edge_weights rs⟩
  intro e he
  have hk : (e.1, e.2.1) ∈ keysE (buildGraph rs).edges := List.mem_map.mpr ⟨e, he, rfl⟩
  obtain ⟨hg, ht⟩ := buildGraph_edge_endpoints rs _ hk
  exact ⟨nodeType_of_gene rs hd e.1 hg, nodeType_of_te rs hd e.2.1 ht⟩

/-- A record set in which the identifier `B` occurs both as a TE (first
record) and as a gene (second record). -/
def collideRecords : List Record :=
  [⟨"A", "B", 1, "up-regulated"⟩, ⟨"B", "C", 1, "up-regulated"⟩]

/-- Counterexample to Claim C2 as stated: without the disjointness
proviso the node count is not the number of distinct genes plus the
number of distinct TEs — on `collideRecords` the graph has 3 nodes but
2 distinct genes plus 2 distinct TEs. -/
theorem graph_builder_postconditions_cex :
    ¬ ((buildGraph collideRecords).nodes.length
        = (collideRecords.map Record.gene).dedup.length
          + (collideRecords.map Record.te).dedup.length) := by
  decide

/-- Witness for C2 on the spec's worked example (3 nodes = 1 gene + 2 TEs). -/
theorem graph_builder_postconditions_witness :
    (buildGraph exRecords).nodes.length
      = (exRecords.map Record.gene).dedup.length + (exRecords.map Record.te).dedup.length :=
  (graph_builder_postconditions exRecords (by decide)).2.1

/-- Claim C3 (amended): provided no identifier occurs both as a gene
symbol and as a TE symbol across the whole record set, a node's kind
never changes once set: the kind it has after a prefix of the records is
the kind it has after all of them.  (Without that proviso the kind is
overwritten by later records — see the counterexample.) -/
theorem node_kind_immutable (l l' : List Record) (n k : String)
    (hd : ∀ a ∈ l ++ l', ∀ b ∈ l ++ l', a.gene ≠ b.te)
    (h : nodeType (buildGraph l) n = some k) :
    nodeType (buildGraph (l ++ l')) n = some k := by
  rcases hl : lookupNode (buildGraph l).nodes n with _ | d
  · simp [nodeType, hl] at h
  · simp only [nodeType, hl] at h
    rcases buildGraph_node_types l n d hl with ⟨hg, hty⟩ | ⟨ht, hty⟩
    · have hk : k = "gene" := by
        rw [hty] at h
        exact (Option.some_injective _ h).symm
      subst hk
      refine nodeType_of_gene (l ++ l') hd n ?_
      rw [List.map_append]
      exact List.mem_append_left _ hg
    · have hk : k = "te" := by
        rw [hty] at h
        exact (Option.some_injective _ h).symm
      subst hk
      refine nodeType_of_te (l ++ l') hd n ?_
      rw [List.map_append]
      exact List.mem_append_left _ ht

/-- Counterexample to Claim C3 as stated: in `collideRecords` the node
`B` is created with kind TE by the first record and its kind is
overwritten to gene by the second record (networkx `add_node` updates
the attributes of an existing node). -/
theorem node_kind_immutable_cex :
    nodeType (buildGraph [⟨"A", "B", 1, "up-regulated"⟩]) "B" = some "te"
    ∧ nodeType (buildGraph collideRecords) "B" ≠ some "te" := by
  decide

/-- Witness for C3: on the spec's worked example (genes and TEs
disjoint) the TE node `L1PA2` keeps kind `"te"` after the remaining
record is processed. -/
theorem node_kind_immutable_witness :
    nodeType (buildGraph ([⟨"TF1", "L1PA2", 0.8, "up-regulated"⟩]
      ++ [⟨"TF1", "AluSx", -0.3, "down-regulated"⟩])) "L1PA2" = some "te" :=
  node_kind_immutable [⟨"TF1", "L1PA2", 0.8, "up-regulated"⟩]
    [⟨"TF1", "AluSx", -0.3, "down-regulated"⟩] "L1PA2" "te" (by decide) (by decide)

end MotifDashboard

namespace MotifDashboard

/-! ### Renderer (app.py lines 59–116) -/

/-- `custom_red = '#C41E3A'` — used for positive edges and for the
border of up-regulated TE nodes. -/
def custom_red : String := "#C41E3A"

/-- `custom_blue = "#5073F8"` — used for non-positive edges and for the
border of TE nodes whose expression direction is not `'up-regulated'`. -/
def custom_blue : String := "#5073F8"

/-- Round to the nearest integer, ties to even — the rounding used by
Python's fixed-point formatting. -/
def roundHalfEven (q : Rat) : Int :=
  let f := q.floor
  if q - f > 1 / 2 then f + 1
  else if q - f < 1 / 2 then f
  else if f % 2 = 0 then f else f + 1

/-- Two decimal digits (most significant first) of `m % 100`. -/
def twoDigits (m : Nat) : String :=
  String.mk [Nat.digitChar (m / 10 % 10), Nat.digitChar (m % 10)]

/-- Python's `f"{x:.2f}"`: the value rounded to two decimal places,
rendered with a sign, an integer part and exactly two fractional
digits. -/
def fmt2 (q : Rat) : String :=
  let r := (roundHalfEven (|q| * 100)).toNat
  (if q < 0 then "-" else "") ++ toString (r / 100) ++ "." ++ twoDigits (r % 100)

/-- The hover label of an edge: both endpoint identities and the
coefficient formatted to two decimal places. -/
def edgeHoverText (u v : String) (w : Rat) : String :=
  u ++ " ↔ " ++ v ++ "<br>coef=" ++ fmt2 w

/-- One plotly line-segment scatter: the two endpoint coordinates
followed by a `None` break, a line color, and a hover text. -/
structure EdgePrim where
  xs : List (Option Rat)
  ys : List (Option Rat)
  width : Rat
  color : String
  text : String
deriving DecidableEq, Repr

/-- The edge loop of `app.py`: one line-segment primitive per stored
edge, red when the weight is positive and blue otherwise. -/
def edgeTrace (g : Graph) (pos : String → Rat × Rat) : List EdgePrim :=
  g.edges.map (fun e =>
    { xs := [some (pos e.1).1, some (pos e.2.1).1, none],
      ys := [some (pos e.1).2, some (pos e.2.1).2, none],
      width := 2,
      color := if e.2.2 > (0 : Rat) then custom_red else custom_blue,
      text := edgeHoverText e.1 e.2.1 e.2.2 })

/-- Fill color of a node marker: orange for gene nodes, light green
otherwise. -/
def nodeFillColor (d : NodeData) : String :=
  if d.type = some "gene" then "orange" else "lightgreen"

/-- Border color of a node marker: black for gene nodes; for the other
nodes, `G.nodes[node].get('exp', 'up')` compared against
`'up-regulated'` selects red, anything else (including the `'up'`
default taken when the attribute is absent) selects blue. -/
def nodeBorderColor (d : NodeData) : String :=
  if d.type = some "gene" then "black"
  else if (d.exp.getD "up") = "up-regulated" then custom_red else custom_blue

/-- The node scatter of `app.py`: coordinates, labels, fill colors and
border colors accumulated over the nodes in insertion order. -/
structure NodeTraceData where
  xs : List Rat
  ys : List Rat
  texts : List String
  fillColors : List String
  borderColors : List String
deriving DecidableEq, Repr

def nodeTrace (g : Graph) (pos : String → Rat × Rat) : NodeTraceData :=
  { xs := g.nodes.map (fun nd => (pos nd.1).1),
    ys := g.nodes.map (fun nd => (pos nd.1).2),
    texts := g.nodes.map Prod.fst,
    fillColors := g.nodes.map (fun nd => nodeFillColor nd.2),
    borderColors := g.nodes.map (fun nd => nodeBorderColor nd.2) }

/-- The assembled figure: `go.Figure(data=edge_trace + [node_trace])`. -/
structure Figure where
  edgePrims : List EdgePrim
  nodePrim : NodeTraceData
deriving DecidableEq, Repr

def buildFigure (g : Graph) (pos : String → Rat × Rat) : Figure :=
  ⟨edgeTrace g pos, nodeTrace g pos⟩

end MotifDashboard

namespace MotifDashboard

theorem digitChar_isDigit : ∀ m : Nat, m < 10 → (Nat.digitChar m).isDigit = true := by
  decide

theorem fmt2_decomp (q : Rat) :
    ∃ pre : String, ∃ a b : Char,
      fmt2 q = pre ++ "." ++ String.mk [a, b] ∧ a.isDigit ∧ b.isDigit := by
  refine ⟨(if q < 0 then "-" else "")
      ++ toString ((roundHalfEven (|q| * 100)).toNat / 100),
    Nat.digitChar ((roundHalfEven (|q| * 100)).toNat % 100 / 10 % 10),
    Nat.digitChar ((roundHalfEven (|q| * 100)).toNat % 100 % 10), rfl,
    digitChar_isDigit _ (Nat.mod_lt _ (by decide)),
    digitChar_isDigit _ (Nat.mod_lt _ (by decide))⟩

/-- Claim C4 (amended): in the rendered node trace, border colors are
computed per node by `nodeBorderColor`; for every non-gene (TE) node the
border is one of the two fixed colors, it is the red up-regulated color
exactly when the `exp` attribute equals `"up-regulated"`, and it is the
blue color — the one used for the down-regulated category — when the
attribute is absent (the code's `'up'` default never matches
`'up-regulated'`) or holds any other unrecognized value. -/
theorem te_border_color_rule (g : Graph) (pos : String → Rat × Rat) :
    (nodeTrace g pos).borderColors = g.nodes.map (fun nd => nodeBorderColor nd.2)
    ∧ (∀ d : NodeData, d.type ≠ some "gene" →
        (nodeBorderColor d = custom_red ∨ nodeBorderColor d = custom_blue)
        ∧ (nodeBorderColor d = custom_red ↔ d.exp = some "up-regulated")
        ∧ (d.exp = none → nodeBorderColor d = custom_blue)) := by
  refine ⟨rfl, ?_⟩
  intro d hd
  rcases hde : d.exp with _ | e
  · have hblue : nodeBorderColor d = custom_blue := by
      unfold nodeBorderColor
      rw [if_neg hd, hde]
      decide
    refine ⟨Or.inr hblue, ?_, fun _ => hblue⟩
    rw [hblue]
    decide
  · by_cases he : e = "up-regulated"
    · subst he
      have hred : nodeBorderColor d = custom_red := by
        unfold nodeBorderColor
        rw [if_neg hd, hde]
        decide
      refine ⟨Or.inl hred, ?_, ?_⟩
      · rw [hred]
        decide
      · intro hn
        simp at hn
    · have hblue : nodeBorderColor d = custom_blue := by
        unfold nodeBorderColor
        rw [if_neg hd, hde]
        have : ¬ ((some e).getD "up" = "up-regulated") := by
          simpa using he
        rw [if_neg this]
      refine ⟨Or.inr hblue, ?_, ?_⟩
      · rw [hblue]
        constructor
        · intro hh
          exact absurd hh (by decide)
        · intro hh
          exact absurd (Option.some_injective _ hh) he
      · intro hn
        simp at hn

/-- Counterexample to Claim C4 as stated: a TE whose expression
direction is an unrecognized value (here `"weird"`), or a TE node
without the attribute, gets the blue border — the color used for the
down-regulated category — not the up-regulated red. -/
theorem te_border_color_cex :
    (nodeTrace (buildGraph [⟨"G1", "T1", 1, "weird"⟩])
        (fun _ => ((0 : Rat), (0 : Rat)))).borderColors = ["black", custom_blue]
    ∧ nodeBorderColor ⟨some "te", none⟩ = custom_blue
    ∧ nodeBorderColor ⟨some "te", some "down-regulated"⟩ = custom_blue
    ∧ nodeBorderColor ⟨some "te", some "up-regulated"⟩ = custom_red
    ∧ custom_blue ≠ custom_red := by
  decide

/-- Witness for C4: a TE node with the attribute absent gets a border
color that is red iff its (absent) category reads `"up-regulated"`,
i.e. it gets the blue border. -/
theorem te_border_color_rule_witness :
    nodeBorderColor ⟨some "te", none⟩ = custom_red
      ↔ (⟨some "te", none⟩ : NodeData).exp = some "up-regulated" :=
  ((te_border_color_rule ⟨[], []⟩ (fun _ => ((0 : Rat), (0 : Rat)))).2
    ⟨some "te", none⟩ (by decide)).2.1

/-- The per-edge rendering contract: segment endpoints at the two node
positions, red for positive weight, blue for negative weight, and a
hover label equal to both endpoint identities followed by the edge's own
coefficient `e.2.2` formatted by `fmt2` — which always renders with a
decimal point followed by exactly two decimal digits. -/
def EdgePrimOk (pos : String → Rat × Rat) (e : String × String × Rat) (p : EdgePrim) : Prop :=
  p.xs = [some (pos e.1).1, some (pos e.2.1).1, none]
  ∧ p.ys = [some (pos e.1).2, some (pos e.2.1).2, none]
  ∧ ((0 : Rat) < e.2.2 → p.color = custom_red)
  ∧ (e.2.2 < 0 → p.color = custom_blue)
  ∧ p.text = e.1 ++ " ↔ " ++ e.2.1 ++ "<br>coef=" ++ fmt2 e.2.2
  ∧ ∃ pre : String, ∃ a b : Char,
      fmt2 e.2.2 = pre ++ "." ++ String.mk [a, b] ∧ a.isDigit ∧ b.isDigit

/-- A placeholder edge (used only as the default of `List.getD`). -/
def dummyEdge : String × String × Rat := ("", "", 0)

/-- A placeholder primitive (used only as the default of `List.getD`). -/
def dummyPrim : EdgePrim := ⟨[], [], 0, "", ""⟩

theorem getD_map_lt {α β : Type} (f : α → β) (l : List α) (i : Nat) (h : i < l.length)
    (d : α) (d' : β) : (l.map f).getD i d' = f (l.getD i d) := by
  induction l generalizing i with
  | nil => simp at h
  | cons x xs ih =>
    cases i with
    | zero => simp
    | succ n =>
      simp only [List.map_cons, List.getD_cons_succ]
      exact ih n (by simpa using h)

/-- Claim C6: the renderer emits exactly one line-segment primitive per
stored edge (the i-th primitive for the i-th edge), whose endpoints are
the positions of the edge's endpoints, whose color is the fixed red for
positive weight and the fixed blue for negative weight, and whose hover
label contains both endpoint identities and the coefficient formatted to
exactly two decimal places. -/
theorem edge_rendering (g : Graph) (pos : String → Rat × Rat) :
    (edgeTrace g pos).length = g.edges.length
    ∧ ∀ i : Nat, i < g.edges.length →
        EdgePrimOk pos (g.edges.getD i dummyEdge) ((edgeTrace g pos).getD i dummyPrim) := by
  constructor
  · simp [edgeTrace]
  · intro i hi
    rw [edgeTrace, getD_map_lt _ _ i hi dummyEdge dummyPrim]
    set e := g.edges.getD i dummyEdge with he
    refine ⟨rfl, rfl, ?_, ?_, rfl, fmt2_decomp e.2.2⟩
    · intro hw
      show (if e.2.2 > (0 : Rat) then custom_red else custom_blue) = custom_red
      rw [if_pos hw]
    · intro hw
      show (if e.2.2 > (0 : Rat) then custom_red else custom_blue) = custom_blue
      rw [if_neg (not_lt.mpr (le_of_lt hw))]

/-- Witness for C6: the contract holds for the first (positive) edge of
the one-record example graph. -/
theorem edge_rendering_witness :
    EdgePrimOk (fun _ => ((0 : Rat), (0 : Rat)))
      ((buildGraph [⟨"TF1", "L1PA2", 0.8, "up-regulated"⟩]).edges.getD 0 dummyEdge)
      ((edgeTrace (buildGraph [⟨"TF1", "L1PA2", 0.8, "up-regulated"⟩])
          (fun _ => ((0 : Rat), (0 : Rat)))).getD 0 dummyPrim) :=
  (edge_rendering (buildGraph [⟨"TF1", "L1PA2", 0.8, "up-regulated"⟩])
      (fun _ => ((0 : Rat), (0 : Rat)))).2 0 (by decide)

/-- Claim C7: on an empty graph (no nodes, no edges) the renderer still
produces a figure, with zero line-segment primitives and zero marker
coordinates, labels and colors. -/
theorem empty_graph_rendering (g : Graph) (pos : String → Rat × Rat)
    (hn : g.nodes = []) (he : g.edges = []) :
    (buildFigure g pos).edgePrims = []
    ∧ (buildFigure g pos).nodePrim.xs = []
    ∧ (buildFigure g pos).nodePrim.ys = []
    ∧ (buildFigure g pos).nodePrim.texts = []
    ∧ (buildFigure g pos).nodePrim.fillColors = []
    ∧ (buildFigure g pos).nodePrim.borderColors = [] := by
  simp [buildFigure, edgeTrace, nodeTrace, hn, he]

/-- Witness for C7: the graph built from zero records renders with no
line-segment primitives. -/
theorem empty_graph_rendering_witness :
    (buildFigure (buildGraph []) (fun _ => ((0 : Rat), (0 : Rat)))).edgePrims = [] :=
  (empty_graph_rendering (buildGraph []) (fun _ => ((0 : Rat), (0 : Rat))) rfl rfl).1

end MotifDashboard

namespace MotifDashboard

/-! ### CSV loading (app_previous.py, `load_csv_data`)

An input table is an association list from column names to the raw cell
texts of that column; all present columns have the row count `n`.
`pd.to_numeric(..., errors='coerce')` is modelled by an exact decimal /
scientific parser returning `none` for non-parseable text. -/

/-- Strip leading and trailing whitespace. -/
def trimChars (cs : List Char) : List Char :=
  ((cs.dropWhile Char.isWhitespace).reverse.dropWhile Char.isWhitespace).reverse

/-- An optional leading sign. -/
def parseSign : List Char → Int × List Char
  | '-' :: rest => (-1, rest)
  | '+' :: rest => (1, rest)
  | cs => (1, cs)

/-- A non-empty all-digit run, as a number. -/
def parseDigits (cs : List Char) : Option Nat :=
  if cs ≠ [] ∧ cs.all Char.isDigit then
    some (cs.foldl (fun a c => a * 10 + (c.toNat - 48)) 0)
  else none

/-- Integer and optional fractional part: `12`, `12.5`, `12.`, `.5`. -/
def parseMantissa (cs : List Char) : Option Rat :=
  match cs.splitOn '.' with
  | [ip] => (parseDigits ip).map (fun a => (a : Rat))
  | [ip, fp] =>
    if ip.isEmpty && fp.isEmpty then none
    else
      match (if ip.isEmpty then some 0 else parseDigits ip),
          (if fp.isEmpty then some 0 else parseDigits fp) with
      | some a, some b => some ((a : Rat) + (b : Rat) / (10 : Rat) ^ fp.length)
      | _, _ => none
  | _ => none

/-- Ten to a signed power. -/
def pow10 (e : Int) : Rat :=
  if 0 ≤ e then (10 : Rat) ^ e.toNat else 1 / (10 : Rat) ^ (-e).toNat

/-- Numeric parsing of one cell (`pd.to_numeric` element behaviour):
optional surrounding whitespace, optional sign, decimal mantissa,
optional scientific exponent; `none` when the text is not a number. -/
def parseNum (s : String) : Option Rat :=
  let cs := trimChars (s.data.map Char.toLower)
  let sp := parseSign cs
  match sp.2.splitOn 'e' with
  | [m] => (parseMantissa m).map (fun q => sp.1 * q)
  | [m, ex] =>
    match parseMantissa m with
    | none => none
    | some mv =>
      let ep := parseSign ex
      match parseDigits ep.2 with
      | none => none
      | some ev => some (sp.1 * mv * pow10 (ep.1 * (ev : Int)))
  | _ => none

/-- Python `int()` – truncation toward zero (`.astype(int)` after
`fillna(0)`). -/
def ratTrunc (q : Rat) : Int :=
  if q < 0 then -((-q).floor) else q.floor

/-- `pd.to_numeric(col, errors='coerce').fillna(0).astype(int)` on one cell. -/
def coerceInt (s : String) : Int := ratTrunc ((parseNum s).getD 0)

/-- `pd.to_numeric(col, errors='coerce').fillna(0)` on one cell. -/
def coerceRat (s : String) : Rat := (parseNum s).getD 0

/-- `df.columns.str.strip()` followed by the renaming map
`{chromosome → chr, te_family → tefamily, classification → class}`. -/
def renameCol (s : String) : String :=
  let t := String.mk (trimChars s.data)
  if t = "chromosome" then "chr"
  else if t = "te_family" then "tefamily"
  else if t = "classification" then "class"
  else t

/-- The loader's view of the uploaded table after name cleaning. -/
def normalizeTable (t : List (String × List String)) : List (String × List String) :=
  t.map (fun p => (renameCol p.1, p.2))

/-- The raw cells of a column; a missing required column is synthesized
as all-empty (`df[col] = ''`). -/
def getCol (t : List (String × List String)) (name : String) (n : Nat) : List String :=
  match (normalizeTable t).lookup name with
  | some c => c
  | none => List.replicate n ""

/-- The raw text of row `i` of a column. -/
def cellAt (t : List (String × List String)) (name : String) (n i : Nat) : String :=
  (getCol t name n).getD i ""

/-- One row of the working dataset of `app_previous.py`. -/
structure Row where
  chr : String
  start : Int
  endv : Int
  motif : String
  strand : String
  pvalue : Rat
  tefamily : String
  cls : String
  length : Int
  gene : String
  species : String
deriving DecidableEq, Repr

/-- Row `i` of the cleaned and coerced table. -/
def mkRow (t : List (String × List String)) (n i : Nat) : Row :=
  { chr := cellAt t "chr" n i,
    start := coerceInt (cellAt t "start" n i),
    endv := coerceInt (cellAt t "end" n i),
    motif := cellAt t "motif" n i,
    strand := cellAt t "strand" n i,
    pvalue := coerceRat (cellAt t "pvalue" n i),
    tefamily := cellAt t "tefamily" n i,
    cls := cellAt t "class" n i,
    length := coerceInt (cellAt t "length" n i),
    gene := cellAt t "gene" n i,
    species := cellAt t "species" n i }

/-- The essential-data filter
`df[(df['chr'] != '') & (df['start'] > 0) & (df['end'] > 0)]`. -/
def essentialRow (r : Row) : Bool :=
  r.chr != "" && decide (r.start > 0) && decide (r.endv > 0)

/-- `load_csv_data` of `app_previous.py` on a table of `n` rows: clean
and rename columns, synthesize missing required columns as empty,
coerce the numeric columns with non-parseable cells becoming 0, and drop
rows without essential data. -/
def load_csv_data (t : List (String × List String)) (n : Nat) : List Row :=
  ((List.range n).map (mkRow t n)).filter essentialRow

/-- The required textual columns and their row fields. -/
def textSelectors : List (String × (Row → String)) :=
  [("chr", Row.chr), ("motif", Row.motif), ("strand", Row.strand),
   ("tefamily", Row.tefamily), ("class", Row.cls), ("gene", Row.gene),
   ("species", Row.species)]

end MotifDashboard

namespace MotifDashboard

theorem getD_replicate {α : Type} (a : α) (n i : Nat) :
    (List.replicate n a).getD i a = a := by
  induction n generalizing i with
  | zero => simp
  | succ m ih =>
    cases i with
    | zero => simp [List.replicate]
    | succ j =>
      simp only [List.replicate, List.getD_cons_succ]
      exact ih j

theorem ratTrunc_zero : ratTrunc 0 = 0 := by
  with_unfolding_all decide

/-- Claim C8 (amended): the loader never fails — a required column
missing from the (cleaned, renamed) input is synthesized as the empty
string in every returned row, and every non-parseable numeric cell is
coerced to 0; but the returned working dataset is the coerced rows that
pass the essential-data filter (`chr ≠ ''`, `start > 0`, `end > 0`), so
a row whose `start` or `end` was non-parseable (coerced to 0) is dropped
rather than appearing with a 0; non-parseable `pvalue` and `length`
cells do appear as 0 in the surviving rows. -/
theorem load_csv_coercion (t : List (String × List String)) (n : Nat) :
    (∀ sel ∈ textSelectors, (normalizeTable t).lookup sel.1 = none →
        ∀ r ∈ load_csv_data t n, sel.2 r = "")
    ∧ (∀ r : Row, r ∈ load_csv_data t n
        ↔ ∃ i, i < n ∧ mkRow t n i = r ∧ essentialRow r = true)
    ∧ (∀ i, i < n →
        (parseNum (cellAt t "pvalue" n i) = none → (mkRow t n i).pvalue = 0)
        ∧ (parseNum (cellAt t "length" n i) = none → (mkRow t n i).length = 0)
        ∧ (parseNum (cellAt t "start" n i) = none → (mkRow t n i).start = 0)
        ∧ (parseNum (cellAt t "end" n i) = none → (mkRow t n i).endv = 0)) := by
  have hmem : ∀ r : Row, r ∈ load_csv_data t n
      ↔ ∃ i, i < n ∧ mkRow t n i = r ∧ essentialRow r = true := by
    intro r
    rw [load_csv_data, List.mem_filter, List.mem_map]
    constructor
    · rintro ⟨⟨i, hir, rfl⟩, hes⟩
      exact ⟨i, List.mem_range.mp hir, rfl, hes⟩
    · rintro ⟨i, hin, rfl, hes⟩
      exact ⟨⟨i, List.mem_range.mpr hin, rfl⟩, hes⟩
  refine ⟨?_, hmem, ?_⟩
  · intro sel hsel hnone r hr
    obtain ⟨i, -, rfl, -⟩ := (hmem r).mp hr
    have hcell : ∀ name, (normalizeTable t).lookup name = none →
        cellAt t name n i = "" := by
      intro name hn
      rw [cellAt, getCol, hn]
      exact getD_replicate "" n i
    simp only [textSelectors, List.mem_cons, List.mem_singleton] at hsel
    rcases hsel with rfl | rfl | rfl | rfl | rfl | rfl | rfl | h
    · exact hcell "chr" hnone
    · exact hcell "motif" hnone
    · exact hcell "strand" hnone
    · exact hcell "tefamily" hnone
    · exact hcell "class" hnone
    · exact hcell "gene" hnone
    · exact hcell "species" hnone
    · simp at h
  · intro i _
    refine ⟨?_, ?_, ?_, ?_⟩
    · intro hp
      simp [mkRow, coerceRat, hp]
    · intro hp
      simp [mkRow, coerceInt, hp, ratTrunc_zero]
    · intro hp
      simp [mkRow, coerceInt, hp, ratTrunc_zero]
    · intro hp
      simp [mkRow, coerceInt, hp, ratTrunc_zero]

/-- A one-row table whose `start` cell is non-parseable. -/
def cexTable : List (String × List String) :=
  [("chr", ["chr1"]), ("start", ["abc"]), ("end", ["100"])]

/-- Counterexample to Claim C8 as stated: the non-parseable `start`
value of `cexTable` is coerced to 0, which then fails the `start > 0`
essential-data filter, so the returned working dataset is empty — the
non-parseable numeric value does not appear as 0 in it. -/
theorem load_csv_coercion_cex :
    parseNum "abc" = none ∧ load_csv_data cexTable 1 = [] := by
  with_unfolding_all decide

/-- A one-row table whose `pvalue` cell is non-parseable. -/
def wTable : List (String × List String) :=
  [("chr", ["chr1"]), ("start", ["5"]), ("end", ["7"]), ("pvalue", ["zz"])]

/-- Witness for C8: the non-parseable `pvalue` cell of `wTable` is
coerced to 0 in the loaded row. -/
theorem load_csv_coercion_witness :
    (mkRow wTable 1 0).pvalue = 0 :=
  ((load_csv_coercion wTable 1).2.2 0 (by decide)).1 (by with_unfolding_all decide)

end MotifDashboard

namespace MotifDashboard

/-! ### Tabular dashboard filters (app_previous.py `filter_data` and
utils/sidebar_filters.py `filter_dataframe`) -/

/-- The filter dictionary built by the sidebar of `app_previous.py`:
seven single-choice columns (the empty string meaning "no selection")
plus the two numeric inputs (0 being the widget default). -/
structure Filters where
  chr : String
  motif : String
  strand : String
  cls : String
  tefamily : String
  gene : String
  species : String
  pvalue_max : Rat
  length_min : Int
deriving Repr

/-- `filter_data(df, filters)`: each truthy (non-empty) column selection
is applied as an equality filter; then the numeric thresholds are
applied only when truthy (non-zero). -/
def filter_data (df : List Row) (f : Filters) : List Row :=
  let d1 := if f.chr ≠ "" then df.filter (fun r => decide (r.chr = f.chr)) else df
  let d2 := if f.motif ≠ "" then d1.filter (fun r => decide (r.motif = f.motif)) else d1
  let d3 := if f.strand ≠ "" then d2.filter (fun r => decide (r.strand = f.strand)) else d2
  let d4 := if f.cls ≠ "" then d3.filter (fun r => decide (r.cls = f.cls)) else d3
  let d5 := if f.tefamily ≠ "" then d4.filter (fun r => decide (r.tefamily = f.tefamily)) else d4
  let d6 := if f.gene ≠ "" then d5.filter (fun r => decide (r.gene = f.gene)) else d5
  let d7 := if f.species ≠ "" then d6.filter (fun r => decide (r.species = f.species)) else d6
  let d8 := if f.pvalue_max ≠ 0 then d7.filter (fun r => decide (r.pvalue ≤ f.pvalue_max)) else d7
  let d9 := if f.length_min ≠ 0 then d8.filter (fun r => decide (r.length ≥ f.length_min)) else d8
  d9

/-- The row predicate `filter_data` actually enforces: every active
(non-empty / non-zero) selection must hold; inactive selections impose
no constraint. -/
def rowPasses (f : Filters) (r : Row) : Bool :=
  (decide (f.chr = "") || decide (r.chr = f.chr))
  && (decide (f.motif = "") || decide (r.motif = f.motif))
  && (decide (f.strand = "") || decide (r.strand = f.strand))
  && (decide (f.cls = "") || decide (r.cls = f.cls))
  && (decide (f.tefamily = "") || decide (r.tefamily = f.tefamily))
  && (decide (f.gene = "") || decide (r.gene = f.gene))
  && (decide (f.species = "") || decide (r.species = f.species))
  && (decide (f.pvalue_max = 0) || decide (r.pvalue ≤ f.pvalue_max))
  && (decide (f.length_min = 0) || decide (r.length ≥ f.length_min))

/-- One row of `data/df_dashboard.csv` (app_big_dataframe.py). -/
structure BigRow where
  chrom : String
  motif : String
  te : String
  family : String
  cls : String
  species : String
  gene : String
  start : Rat
  endv : Rat
  pvalue : Rat
deriving DecidableEq, Repr

/-- The multiselect state of `sidebar_filters.py` (an empty list means
"no selection"). -/
structure BigFilters where
  chrom : List String
  motif : List String
  te : List String
  family : List String
  cls : List String
  species : List String
  gene : List String
deriving Repr

/-- `filter_dataframe(df, filters)`: each non-empty multiselect is
applied as an `isin` membership filter. -/
def filter_dataframe (df : List BigRow) (f : BigFilters) : List BigRow :=
  let d1 := if f.chrom ≠ [] then df.filter (fun r => f.chrom.contains r.chrom) else df
  let d2 := if f.motif ≠ [] then d1.filter (fun r => f.motif.contains r.motif) else d1
  let d3 := if f.te ≠ [] then d2.filter (fun r => f.te.contains r.te) else d2
  let d4 := if f.family ≠ [] then d3.filter (fun r => f.family.contains r.family) else d3
  let d5 := if f.cls ≠ [] then d4.filter (fun r => f.cls.contains r.cls) else d4
  let d6 := if f.species ≠ [] then d5.filter (fun r => f.species.contains r.species) else d5
  let d7 := if f.gene ≠ [] then d6.filter (fun r => f.gene.contains r.gene) else d6
  d7

/-- The row predicate `filter_dataframe` actually enforces. -/
def bigRowPasses (f : BigFilters) (r : BigRow) : Bool :=
  (decide (f.chrom = []) || f.chrom.contains r.chrom)
  && (decide (f.motif = []) || f.motif.contains r.motif)
  && (decide (f.te = []) || f.te.contains r.te)
  && (decide (f.family = []) || f.family.contains r.family)
  && (decide (f.cls = []) || f.cls.contains r.cls)
  && (decide (f.species = []) || f.species.contains r.species)
  && (decide (f.gene = []) || f.gene.contains r.gene)

theorem filter_stage {α : Type} (p : Prop) [Decidable p] (q : α → Bool) (l : List α) :
    (if p then l.filter q else l) = l.filter (fun a => !(decide p) || q a) := by
  by_cases h : p <;> simp [h]

/-- Claim C9 (amended): both tabular filters return exactly the rows
satisfying every *active* predicate — a column with no selection imposes
no constraint, and the two numeric thresholds `pvalue ≤ max` and
`length ≥ min` are applied only when the chosen value is non-zero (the
widgets' 0 default is treated as "unset" by Python truthiness, not as a
threshold); the output is always a subset of the input. -/
theorem tabular_filter_contract (df : List Row) (f : Filters)
    (bdf : List BigRow) (bf : BigFilters) :
    filter_data df f = df.filter (rowPasses f)
    ∧ (filter_data df f).Sublist df
    ∧ filter_dataframe bdf bf = bdf.filter (bigRowPasses bf)
    ∧ (filter_dataframe bdf bf).Sublist bdf := by
  have h1 : filter_data df f = df.filter (rowPasses f) := by
    unfold filter_data
    simp only [filter_stage]
    simp only [List.filter_filter]
    refine List.filter_congr ?_
    intro a _
    simp only [rowPasses, ne_eq, decide_not, Bool.not_not]
    ac_rfl
  have h2 : filter_dataframe bdf bf = bdf.filter (bigRowPasses bf) := by
    unfold filter_dataframe
    simp only [filter_stage]
    simp only [List.filter_filter]
    refine List.filter_congr ?_
    intro a _
    simp only [bigRowPasses, ne_eq, decide_not, Bool.not_not]
    ac_rfl
  refine ⟨h1, ?_, h2, ?_⟩
  · rw [h1]
    exact List.filter_sublist df
  · rw [h2]
    exact List.filter_sublist bdf

/-- A row with `pvalue = 1`. -/
def cexRow : Row :=
  { chr := "chr1", start := 1, endv := 2, motif := "m", strand := "+", pvalue := 1,
    tefamily := "fam", cls := "L1", length := 5, gene := "g", species := "Human" }

/-- The widget-default filter selection: nothing chosen, both numeric
inputs at their 0 default. -/
def cexFilters : Filters :=
  { chr := "", motif := "", strand := "", cls := "", tefamily := "", gene := "",
    species := "", pvalue_max := 0, length_min := 0 }

/-- Counterexample to Claim C9 as stated: with the chosen maximum 0 the
code skips the threshold entirely (Python truthiness), so the returned
row violates the claimed predicate `pvalue ≤ chosen maximum`. -/
theorem tabular_filter_contract_cex :
    filter_data [cexRow] cexFilters = [cexRow]
    ∧ ¬ (cexRow.pvalue ≤ cexFilters.pvalue_max) := by
  with_unfolding_all decide

end MotifDashboard

namespace MotifDashboard

/-! ### Strip plot (utils/swarmplot.py `plot_swarmplot`) -/

/-- The fixed chromosome order `chr1 … chr22, chrX, chrY`. -/
def chromOrder : List String :=
  ((List.range 22).map (fun i => "chr" ++ toString (i + 1))) ++ ["chrX", "chrY"]

/-- `chrom_present`: the standard chromosome labels that occur in the
dataframe, in the fixed order. -/
def chromPresent (df : List BigRow) : List String :=
  chromOrder.filter (fun c => df.any (fun r => r.chrom == c))

/-- One plotted point of the strip plot: its x coordinate (the feature
midpoint) and its categorical y value — `none` when the row's `CHROM`
is not among the ordered categories (pandas turns such values into NaN
under an ordered categorical, so the point has no category). -/
structure StripPoint where
  x : Rat
  cat : Option String
deriving DecidableEq, Repr

/-- `plot_swarmplot`: add the `midpoint = (START + END) / 2` column and
coerce `CHROM` to an ordered categorical over `chrom_present`. -/
def plot_swarmplot (df : List BigRow) : List StripPoint :=
  df.map (fun r =>
    { x := (r.start + r.endv) / 2,
      cat := if (chromPresent df).contains r.chrom then some r.chrom else none })

/-- A placeholder row (used only as the default of `List.getD`). -/
def dummyRow : BigRow := ⟨"", "", "", "", "", "", "", 0, 0, 0⟩

/-- A placeholder point (used only as the default of `List.getD`). -/
def dummyPoint : StripPoint := ⟨0, none⟩

/-- Claim C10: the strip plot has one point per row; the i-th point's
x coordinate is the midpoint `(START + END) / 2` of the i-th row, and
its category is the row's `CHROM` exactly when that label is one of
`chr1 … chr22, chrX, chrY`, and undefined (`none`) otherwise — so only
rows with standard chromosome labels appear as positioned points. -/
theorem swarmplot_points (df : List BigRow) :
    (plot_swarmplot df).length = df.length
    ∧ ∀ i : Nat, i < df.length →
        ((plot_swarmplot df).getD i dummyPoint).x
          = ((df.getD i dummyRow).start + (df.getD i dummyRow).endv) / 2
        ∧ (((plot_swarmplot df).getD i dummyPoint).cat
            = if (df.getD i dummyRow).chrom ∈ chromOrder
              then some (df.getD i dummyRow).chrom else none) := by
  constructor
  · simp [plot_swarmplot]
  · intro i hi
    rw [plot_swarmplot, getD_map_lt _ _ i hi dummyRow dummyPoint]
    set r := df.getD i dummyRow with hrdef
    have hr : r ∈ df := by
      rw [hrdef, List.getD_eq_getElem df dummyRow hi]
      exact List.getElem_mem hi
    refine ⟨rfl, ?_⟩
    have hmemiff : ((chromPresent df).contains r.chrom = true) ↔ r.chrom ∈ chromOrder := by
      constructor
      · intro h
        have h2 : r.chrom ∈ chromPresent df := by simpa using h
        exact (List.mem_filter.mp h2).1
      · intro h
        have h2 : r.chrom ∈ chromPresent df := by
          rw [chromPresent, List.mem_filter]
          exact ⟨h, List.any_eq_true.mpr ⟨r, hr, by simp⟩⟩
        simpa using h2
    by_cases hc : r.chrom ∈ chromOrder
    · show (if (chromPresent df).contains r.chrom then some r.chrom else none) = _
      rw [if_pos (hmemiff.mpr hc), if_pos hc]
    · show (if (chromPresent df).contains r.chrom then some r.chrom else none) = _
      rw [if_neg (fun hcon => hc (hmemiff.mp hcon)), if_neg hc]

/-- A single standard-chromosome row. -/
def wRow : BigRow := ⟨"chr1", "m", "t", "f", "c", "s", "g", 10, 20, 0⟩

/-- Witness for C10 on a one-row dataframe. -/
theorem swarmplot_points_witness :
    ((plot_swarmplot [wRow]).getD 0 dummyPoint).x
      = (([wRow].getD 0 dummyRow).start + ([wRow].getD 0 dummyRow).endv) / 2
    ∧ (((plot_swarmplot [wRow]).getD 0 dummyPoint).cat
        = if ([wRow].getD 0 dummyRow).chrom ∈ chromOrder
          then some ([wRow].getD 0 dummyRow).chrom else none) :=
  (swarmplot_points [wRow]).2 0 (by decide)

end MotifDashboard
